import Mathlib

/-!
Shallow embedding of the analytics and insight-generation core of the
standup-tracker service (sources: `src/services/aiService.js`,
`src/services/storageService.js`, `src/handlers/dataHandler.js`).

JavaScript strings are modelled as Lean `String` (the records in question are
ASCII, where UTF-16 code-unit operations and Lean character operations agree);
JavaScript numbers are modelled as `Nat`/`Int` where the source only ever holds
integers, and as `Rat` where the source divides or uses fractional
coefficients, i.e. arithmetic is modelled exactly rather than in IEEE-754
doubles.  Fallible operations return `Option`/`Except`.
-/

/-! ## JavaScript string primitives -/

/-- Character-list version of JavaScript `String.prototype.startsWith`. -/
def leadsChars : List Char → List Char → Bool
  | [], _ => true
  | _ :: _, [] => false
  | a :: as, b :: bs => a == b && leadsChars as bs

/-- Character-list version of JavaScript `String.prototype.includes`:
`containsChars s sub` is true when `sub` occurs contiguously inside `s`. -/
def containsChars : List Char → List Char → Bool
  | [], sub => sub.isEmpty
  | c :: cs, sub => leadsChars sub (c :: cs) || containsChars cs sub

/-- JavaScript `s.includes(sub)`. -/
def jsIncludes (s sub : String) : Bool :=
  containsChars s.data sub.data

/-- JavaScript `s.substring(0, n)` (also `s.slice(0, n)` on a non-negative
bound): the first `min n (length s)` characters. -/
def jsTake (s : String) (n : Nat) : String :=
  ⟨s.data.take n⟩

/-- JavaScript `s.endsWith(c)` for a single-character suffix. -/
def endsWithChar (s : String) (c : Char) : Bool :=
  match s.data.getLast? with
  | some d => d == c
  | none => false

/-- JavaScript array `slice(-n)`: the last `min n (length l)` elements. -/
def lastN {α : Type} (n : Nat) (l : List α) : List α :=
  l.drop (l.length - n)

/-- The whitespace class used by JavaScript `trim` and the regex class `\s`
(the sources only ever meet ASCII whitespace). -/
def jsWs (c : Char) : Bool :=
  c.isWhitespace

/-- JavaScript `s.toLowerCase()` (ASCII, where it agrees with
`Char.toLower`). -/
def jsToLower (s : String) : String :=
  ⟨s.data.map Char.toLower⟩

/-- JavaScript `s.trim()`: strip leading and trailing whitespace. -/
def jsTrim (s : String) : String :=
  ⟨((s.data.dropWhile jsWs).reverse.dropWhile jsWs).reverse⟩

/-- Split a character list at every occurrence of `c`, keeping empty
segments, as JavaScript `split` does. -/
def splitChars (c : Char) : List Char → List (List Char)
  | [] => [[]]
  | ch :: rest =>
    let r := splitChars c rest
    if ch == c then [] :: r
    else
      match r with
      | hd :: tl => (ch :: hd) :: tl
      | [] => [[ch]]

/-- JavaScript `text.split('\n')`. -/
def jsSplitLines (s : String) : List String :=
  (splitChars '\n' s.data).map String.mk

/-! ## JavaScript value model and `JSON.parse`

`aiService.js` runs the model response through `JSON.parse`, whose result can
be any JavaScript value (null, boolean, number, string, array, object), so the
question pipeline is modelled over this value type.  -/

/-- A parsed JSON value, i.e. the possible results of `JSON.parse`. -/
inductive JsValue where
  | null : JsValue
  | bool (b : Bool) : JsValue
  | num (n : Int) : JsValue
  | str (s : String) : JsValue
  | arr (xs : List JsValue) : JsValue
  | obj (fields : List (String × JsValue)) : JsValue
  deriving Repr

/-- JSON insignificant whitespace. -/
def jsonWs (c : Char) : Bool :=
  c == ' ' || c == '\n' || c == '\t' || c == '\r'

/-- Drop leading JSON whitespace. -/
def skipWs (cs : List Char) : List Char :=
  cs.dropWhile jsonWs

/-- Parse the remainder of a JSON string literal (the opening quote already
consumed).  Models `JSON.parse` string handling on the fragment the proofs
use: the common escapes are honoured and unsupported escapes or raw control
characters make the whole parse fail (which the embedding treats as the
`JSON.parse` exception path). -/
def parseJsonString : List Char → Option (String × List Char)
  | [] => none
  | '"' :: rest => some ("", rest)
  | '\\' :: e :: rest =>
    let decoded : Option Char :=
      if e = '"' then some '"'
      else if e = '\\' then some '\\'
      else if e = '/' then some '/'
      else if e = 'n' then some '\n'
      else if e = 't' then some '\t'
      else if e = 'r' then some '\r'
      else none
    match decoded with
    | none => none
    | some c =>
      match parseJsonString rest with
      | some (s, rem) => some (⟨c :: s.data⟩, rem)
      | none => none
  | c :: rest =>
    if c.toNat < 32 then none
    else
      match parseJsonString rest with
      | some (s, rem) => some (⟨c :: s.data⟩, rem)
      | none => none

/-- Parse a JSON integer numeral (digits with an optional leading minus).
Fractional and exponent forms are not modelled; on them the parse fails, which
the embedding treats as the `JSON.parse` exception path. -/
def parseJsonNumber (cs : List Char) : Option (Int × List Char) :=
  let sign : Bool × List Char :=
    match cs with
    | '-' :: rest => (true, rest)
    | _ => (false, cs)
  let ds := sign.2.takeWhile Char.isDigit
  if ds.isEmpty then none
  else
    let rest := sign.2.drop ds.length
    match rest with
    | '.' :: _ => none
    | 'e' :: _ => none
    | 'E' :: _ => none
    | _ =>
      let n : Nat := ds.foldl (fun acc c => acc * 10 + (c.toNat - 48)) 0
      some (if sign.1 then -(n : Int) else (n : Int), rest)

mutual

/-- Fuel-indexed recursive-descent parser for a JSON value. -/
def parseJsonValue : Nat → List Char → Option (JsValue × List Char)
  | 0, _ => none
  | fuel + 1, cs =>
    match skipWs cs with
    | 'n' :: 'u' :: 'l' :: 'l' :: rest => some (.null, rest)
    | 't' :: 'r' :: 'u' :: 'e' :: rest => some (.bool true, rest)
    | 'f' :: 'a' :: 'l' :: 's' :: 'e' :: rest => some (.bool false, rest)
    | '"' :: rest =>
      match parseJsonString rest with
      | some (s, rem) => some (.str s, rem)
      | none => none
    | '[' :: rest =>
      (match skipWs rest with
       | ']' :: rem => some (.arr [], rem)
       | _ =>
         match parseJsonList fuel rest with
         | some (xs, rem) => some (.arr xs, rem)
         | none => none)
    | '{' :: rest =>
      (match skipWs rest with
       | '}' :: rem => some (.obj [], rem)
       | _ =>
         match parseJsonFields fuel rest with
         | some (fs, rem) => some (.obj fs, rem)
         | none => none)
    | c :: rest =>
      if c.isDigit || c = '-' then
        match parseJsonNumber (c :: rest) with
        | some (n, rem) => some (.num n, rem)
        | none => none
      else none
    | [] => none

/-- Comma-separated JSON values followed by `]`. -/
def parseJsonList : Nat → List Char → Option (List JsValue × List Char)
  | 0, _ => none
  | fuel + 1, cs =>
    match parseJsonValue fuel cs with
    | none => none
    | some (v, rest) =>
      match skipWs rest with
      | ',' :: rest2 =>
        match parseJsonList fuel rest2 with
        | some (xs, rem) => some (v :: xs, rem)
        | none => none
      | ']' :: rem => some ([v], rem)
      | _ => none

/-- Comma-separated `"key": value` fields followed by `}`. -/
def parseJsonFields : Nat → List Char → Option (List (String × JsValue) × List Char)
  | 0, _ => none
  | fuel + 1, cs =>
    match skipWs cs with
    | '"' :: rest =>
      match parseJsonString rest with
      | none => none
      | some (k, rest2) =>
        match skipWs rest2 with
        | ':' :: rest3 =>
          match parseJsonValue fuel rest3 with
          | none => none
          | some (v, rest4) =>
            match skipWs rest4 with
            | ',' :: rest5 =>
              match parseJsonFields fuel rest5 with
              | some (fs, rem) => some ((k, v) :: fs, rem)
              | none => none
            | '}' :: rem => some ([(k, v)], rem)
            | _ => none
        | _ => none
    | _ => none

end

/-- Model of `JSON.parse`: `some v` when the whole input is one JSON value,
`none` for the exception path. -/
def jsonParse (s : String) : Option JsValue :=
  match parseJsonValue (s.length + 1) s.data with
  | some (v, rest) => if (skipWs rest).isEmpty then some v else none
  | none => none

/-! ## Data model (`StandupRecord` ingestion shape and linked items) -/

/-- The submission fields of a standup record that the question generator and
the aggregator read (`standupData` in `aiService.js`). -/
structure StandupData where
  teamMemberName : String
  timestamp : String
  yesterday : String
  today : String
  blockers : String
  deriving Repr, DecidableEq

/-- A linked issue-tracker task; the core only ever reads the count of these,
so just the key is kept. -/
structure JiraTask where
  key : String
  deriving Repr, DecidableEq

/-- A linked code review (`bitbucketPRs` entry): the core reads `state` and
`comment_count`. -/
structure PullRequest where
  title : String
  state : String
  comment_count : Nat
  deriving Repr, DecidableEq

/-! ## `aiService.js`: the question generator -/

/-- The replacement `trimmed.replace(/^\d+\.\s*/, '')` from
`extractQuestionsFromText`: strip a leading run of digits followed by a dot
and any whitespace; when the pattern does not match, the line is unchanged. -/
def stripEnumeration (cs : List Char) : List Char :=
  let ds := cs.takeWhile Char.isDigit
  if ds.isEmpty then cs
  else
    match cs.drop ds.length with
    | '.' :: rest => rest.dropWhile jsWs
    | _ => cs

/-- The replacement `.replace(/^[-*]\s*/, '')`: strip one leading `-` or `*`
marker and any whitespace after it. -/
def stripBullet : List Char → List Char
  | [] => []
  | c :: rest => if c = '-' || c = '*' then rest.dropWhile jsWs else c :: rest

/-- One iteration of the line scan in `extractQuestionsFromText`
(`aiService.js` lines 149-157): keep a trimmed line that ends in `?` and is
longer than 10 characters, after stripping enumeration/bullet markers, when
the cleaned text is longer than 5 characters. -/
def extractLine (line : String) : Option String :=
  let trimmed := jsTrim line
  if endsWithChar trimmed '?' && trimmed.length > 10 then
    let cleaned := jsTrim (String.mk (stripBullet (stripEnumeration trimmed.data)))
    if cleaned.length > 5 then some cleaned else none
  else none

/-- `extractQuestionsFromText` (`aiService.js` lines 145-161): scan the
response line by line for question-like lines. -/
def extractQuestionsFromText (text : String) : List String :=
  (jsSplitLines text).filterMap extractLine

/-- `generateFallbackQuestions` (`aiService.js` lines 166-194): the
deterministic fallback question generator. -/
def generateFallbackQuestions (standupData : StandupData) (tasks : List JiraTask)
    (prs : List PullRequest) : List String :=
  let blockerQs : List String :=
    if standupData.blockers ≠ "" ∧ jsToLower standupData.blockers ≠ "none" ∧
        jsTrim standupData.blockers ≠ "" then
      ["What specific help do you need to resolve the blocker: \"" ++
        jsTake standupData.blockers 50 ++ "...\"?",
       "How long do you estimate it will take to resolve your current blockers?"]
    else []
  let openPRs := prs.filter (fun pr => pr.state == "OPEN")
  let prQs : List String :=
    if openPRs.length > 2 then
      ["You have " ++ toString openPRs.length ++
        " open PRs. Which ones are priority for review and merge?"]
    else []
  let taskQs : List String :=
    if tasks.length > 5 then
      ["With " ++ toString tasks.length ++
        " assigned tasks, how are you prioritizing your work?"]
    else []
  let questions := blockerQs ++ prQs ++ taskQs
  if questions.isEmpty then
    ["Are there any dependencies on other team members that might affect your today\x27s plan?",
     "Do you need any additional resources or support to complete your planned work?",
     "Are there any risks or concerns about meeting your sprint commitments?"]
  else questions

/-- The value bound to `questions` after the parse attempts in
`generateFollowUpQuestions` (`aiService.js` lines 66-76): the structured
`JSON.parse` result when it succeeds, otherwise the array produced by the
line scan. -/
def parsedQuestions (content : String) : JsValue :=
  match jsonParse content with
  | some v => v
  | none => .arr ((extractQuestionsFromText content).map .str)

/-- `generateFollowUpQuestions` (`aiService.js` lines 10-97).  The context
assembly, prompt and Bedrock call are abstracted into the `adapter` argument:
`.ok content` is the text of a successful model response and `.error ()`
stands for any exception or timeout raised up to and including the adapter
call (the outer `catch`, line 91).  When the parse result is a non-empty
array it is returned (truncated to 5); otherwise the fallback questions are
used.  On the exception path the fallback questions are returned without the
`slice(0, 5)` (the code returns directly from the `catch`). -/
def generateFollowUpQuestions (adapter : Except Unit String) (standupData : StandupData)
    (tasks : List JiraTask) (prs : List PullRequest) : List JsValue :=
  match adapter with
  | .error _ => (generateFallbackQuestions standupData tasks prs).map .str
  | .ok content =>
    match parsedQuestions content with
    | .arr (x :: xs) => (x :: xs).take 5
    | _ => ((generateFallbackQuestions standupData tasks prs).map .str).take 5

/-! ## `storageService.js`: stored records and `getTeamMetrics` -/

/-- A stored standup record as read back by the aggregation path
(`getTeamMetrics` reads `teamMemberName`, `timestamp`, `blockers`,
`jiraTasks`, `bitbucketPRs`). -/
structure StandupRecord where
  teamMemberName : String
  timestamp : String
  yesterday : String
  today : String
  blockers : String
  jiraTasks : List JiraTask
  bitbucketPRs : List PullRequest
  deriving Repr, DecidableEq

/-- Per-member statistics accumulated by `getTeamMetrics`
(`storageService.js` lines 309-330). -/
structure MemberStats where
  standupCount : Nat
  totalTasks : Nat
  totalPRs : Nat
  blockers : List String
  deriving Repr, DecidableEq

/-- The blocker-registration guard of `getTeamMetrics` (line 324):
`standup.blockers && standup.blockers.toLowerCase() !== 'none'`, with
JavaScript string truthiness (the empty string is falsy). -/
def blockerValid (blockers : String) : Bool :=
  blockers != "" && jsToLower blockers != "none"

/-- The normalized blocker key (line 328):
`standup.blockers.toLowerCase().substring(0, 50)`. -/
def blockerKey (blockers : String) : String :=
  jsTake (jsToLower blockers) 50

/-- The date-range guard of `getTeamMetrics` (lines 303-304): a record is
kept unless `startDate` is truthy and `timestamp < startDate`, or `endDate`
is truthy and `timestamp > endDate` (JavaScript compares the ISO-8601
strings lexicographically). -/
def inRange (startDate endDate : Option String) (r : StandupRecord) : Bool :=
  (match startDate with
   | some s => s == "" || !(decide (r.timestamp < s))
   | none => true) &&
  (match endDate with
   | some e => e == "" || !(decide (e < r.timestamp))
   | none => true)

/-- Folding one in-range record into one member's statistics (lines 318-326). -/
def updateMember (stats : MemberStats) (r : StandupRecord) : MemberStats :=
  let base : MemberStats :=
    { stats with
      standupCount := stats.standupCount + 1
      totalTasks := stats.totalTasks + r.jiraTasks.length
      totalPRs := stats.totalPRs + r.bitbucketPRs.length }
  if blockerValid r.blockers then
    { base with blockers := base.blockers ++ [r.blockers] }
  else base

/-- Folding one record into the `memberStats` table (lines 309-321); the
table is an association list in key-insertion order, matching JavaScript
object property order for string keys. -/
def updateMemberStats : List (String × MemberStats) → StandupRecord →
    List (String × MemberStats)
  | [], r => [(r.teamMemberName, updateMember ⟨0, 0, 0, []⟩ r)]
  | (n, st) :: rest, r =>
    if n = r.teamMemberName then (n, updateMember st r) :: rest
    else (n, st) :: updateMemberStats rest r

/-- Bumping a normalized blocker key in the `blockerFrequency` table
(line 329); an association list in key-creation order.  The order in which
`Object.entries` later enumerates these keys is not plain insertion order —
it is modelled by `jsObjectEntries` below. -/
def bumpBlocker : List (String × Nat) → String → List (String × Nat)
  | [], k => [(k, 1)]
  | (k0, c) :: rest, k =>
    if k0 = k then (k0, c + 1) :: rest else (k0, c) :: bumpBlocker rest k

/-- The `memberStats` table built from the in-range records. -/
def memberStatsOf (records : List StandupRecord) (startDate endDate : Option String) :
    List (String × MemberStats) :=
  (records.filter (inRange startDate endDate)).foldl updateMemberStats []

/-- The `blockerFrequency` table built from the in-range records. -/
def blockerFrequency (records : List StandupRecord) (startDate endDate : Option String) :
    List (String × Nat) :=
  (records.filter (inRange startDate endDate)).foldl
    (fun acc r => if blockerValid r.blockers then bumpBlocker acc (blockerKey r.blockers) else acc) []

/-- The numeric value of a digit string. -/
def digitsVal (cs : List Char) : Nat :=
  cs.foldl (fun acc c => acc * 10 + (c.toNat - 48)) 0

/-- Whether a property key is a canonical array index per ECMA-262: the
decimal representation (digits only, no leading zero except `"0"` itself) of
an integer below `2^32 - 1`.  Such keys are enumerated before all other
string keys. -/
def isArrayIndexKey (s : String) : Bool :=
  match s.data with
  | [] => false
  | c :: cs =>
    (c :: cs).all Char.isDigit && (c != '0' || cs.isEmpty) &&
      digitsVal (c :: cs) < 4294967295

/-- The numeric value of an array-index key. -/
def arrayIdxVal (s : String) : Nat :=
  digitsVal s.data

/-- One step of the ascending insertion sort of array-index keys (their
numeric order; canonical keys are distinct, so ties cannot arise). -/
def insertByIdxAsc (x : String × Nat) : List (String × Nat) → List (String × Nat)
  | [] => [x]
  | y :: ys => if arrayIdxVal x.1 < arrayIdxVal y.1 then x :: y :: ys else y :: insertByIdxAsc x ys

/-- Ascending numeric sort of array-index-keyed entries. -/
def sortByIdxAsc (l : List (String × Nat)) : List (String × Nat) :=
  l.foldl (fun acc x => insertByIdxAsc x acc) []

/-- The enumeration order of `Object.entries` on an ordinary object, per
ECMA-262 `OrdinaryOwnPropertyKeys`: canonical array-index keys in ascending
numeric order first, then the remaining string keys in creation order. -/
def jsObjectEntries (l : List (String × Nat)) : List (String × Nat) :=
  sortByIdxAsc (l.filter (fun e => isArrayIndexKey e.1)) ++
    l.filter (fun e => !isArrayIndexKey e.1)

/-- One step of the stable descending insertion sort that models
`Object.entries(blockerFrequency).sort(([,a],[,b]) => b - a)`: the inserted
entry goes after every earlier entry with an equal or larger count, as the
(stable, ES2019) JavaScript sort does. -/
def insertByCountDesc (x : String × Nat) : List (String × Nat) → List (String × Nat)
  | [] => [x]
  | y :: ys => if x.2 > y.2 then x :: y :: ys else y :: insertByCountDesc x ys

/-- Stable sort of the blocker-frequency entries by descending count
(`storageService.js` lines 344-345). -/
def sortByCountDesc (l : List (String × Nat)) : List (String × Nat) :=
  l.foldl (fun acc x => insertByCountDesc x acc) []

/-- JavaScript `Math.round` on the non-negative values used here
(round half up). -/
def jsRound (q : ℚ) : ℤ :=
  ⌊q + 1 / 2⌋

/-- The `Metrics` shape returned by `getTeamMetrics`. -/
structure TeamMetrics where
  totalStandups : Nat
  activeMembers : Nat
  averageTasksPerMember : ℚ
  averagePRsPerMember : ℚ
  topBlockers : List (String × Nat)
  memberStats : List (String × MemberStats)
  deriving Repr

/-- `getTeamMetrics` (`storageService.js` lines 273-369) over the record set:
the storage layer (S3 listing and JSON decoding) is plumbing and the records
it yields are the input list.  Averages follow
`Math.round(total / activeMembers * 100) / 100`, `topBlockers` is the top 5
of the stably descending-sorted frequency table, whose entries are
enumerated by `Object.entries` in `jsObjectEntries` order. -/
def getTeamMetrics (records : List StandupRecord) (startDate endDate : Option String) :
    TeamMetrics :=
  let stats := memberStatsOf records startDate endDate
  let activeMembers := stats.length
  let totalTasks := (stats.map (fun p => p.2.totalTasks)).sum
  let totalPRs := (stats.map (fun p => p.2.totalPRs)).sum
  { totalStandups := (records.filter (inRange startDate endDate)).length
    activeMembers := activeMembers
    averageTasksPerMember :=
      if activeMembers > 0 then (jsRound ((totalTasks : ℚ) / activeMembers * 100) : ℚ) / 100 else 0
    averagePRsPerMember :=
      if activeMembers > 0 then (jsRound ((totalPRs : ℚ) / activeMembers * 100) : ℚ) / 100 else 0
    topBlockers :=
      (sortByCountDesc (jsObjectEntries (blockerFrequency records startDate endDate))).take 5
    memberStats := stats }

/-- The order in which normalized blocker keys are first seen in the
in-range record set (specification-side notion used to state the tie-break
rule for `topBlockers`). -/
def firstSeenBlockerKeys (records : List StandupRecord) (startDate endDate : Option String) :
    List String :=
  (records.filter (inRange startDate endDate)).foldl
    (fun acc r =>
      if blockerValid r.blockers then
        (if blockerKey r.blockers ∈ acc then acc else acc ++ [blockerKey r.blockers])
      else acc) []

/-! ## `dataHandler.js`: insights, recommendations, trends, blockers, scores -/

/-- An insight object as produced by `generateTeamInsights`. -/
structure TeamInsight where
  type : String
  message : String
  priority : String
  deriving Repr, DecidableEq

/-- `generateTeamInsights` (`dataHandler.js` lines 344-404): the fixed,
ordered rule table over the team metrics.  Each triggered rule appends one
insight, in source order. -/
def generateTeamInsights (metrics : TeamMetrics) : List TeamInsight :=
  if metrics.totalStandups = 0 then
    [⟨"info", "No standup data available yet", "low"⟩]
  else
    (if metrics.activeMembers > 0 then
      (let avgStandupsPerMember := (metrics.totalStandups : ℚ) / metrics.activeMembers
       if avgStandupsPerMember < 5 then
         [⟨"concern", "Low standup participation - encourage regular updates", "medium"⟩]
       else if avgStandupsPerMember > 20 then
         [⟨"positive", "Excellent standup participation across the team", "low"⟩]
       else [])
     else []) ++
    (if metrics.averageTasksPerMember > 8 then
      [⟨"warning", "High average task load - consider workload distribution", "high"⟩]
     else []) ++
    (if metrics.averagePRsPerMember > 5 then
      [⟨"warning", "Many open PRs per member - prioritize reviews", "medium"⟩]
     else []) ++
    (match metrics.topBlockers with
     | topBlocker :: _ =>
       if topBlocker.2 > 3 then
         [⟨"concern",
           "Recurring blocker detected: \"" ++ topBlocker.1 ++ "\" - needs attention",
           "high"⟩]
       else []
     | [] => [])

/-- `generateTeamRecommendations` (`dataHandler.js` lines 409-442). -/
def generateTeamRecommendations (metrics : TeamMetrics) : List String :=
  if metrics.totalStandups = 0 then
    ["Start conducting regular standup meetings"]
  else
    let recs :=
      (if metrics.activeMembers < 5 then
        ["Encourage more team members to participate in standups"]
       else []) ++
      (if metrics.averageTasksPerMember > 6 then
        ["Review task distribution and consider load balancing"]
       else []) ++
      (if metrics.averagePRsPerMember > 3 then
        ["Implement regular PR review sessions"]
       else []) ++
      (if metrics.topBlockers.length > 2 then
        ["Schedule blocker resolution sessions",
         "Consider creating a blocker escalation process"]
       else [])
    if recs.isEmpty then
      ["Team metrics look healthy - keep up the good work!"]
    else recs

/-- A trend direction as reported by `analyzeMemberTrends`. -/
inductive TrendDir where
  | increasing : TrendDir
  | decreasing : TrendDir
  | stable : TrendDir
  deriving Repr, DecidableEq

/-- The result of `analyzeMemberTrends`: either the insufficient-data
sentinel object `{ message: ... }` or the `{ taskTrend, prTrend,
blockerTrend }` object. -/
inductive TrendResult where
  | insufficient (message : String) : TrendResult
  | trends (taskTrend prTrend blockerTrend : TrendDir) : TrendResult
  deriving Repr, DecidableEq

/-- One step of the stable ascending insertion sort that models
`[...recentUpdates].sort((a, b) => new Date(a.timestamp) - new Date(b.timestamp))`:
on the ISO-8601 timestamps the system stores, `Date` order coincides with
lexicographic string order, and the (stable) JavaScript sort keeps elements
with equal keys in input order, as inserting after equal keys does. -/
def insertByTimestamp (x : StandupRecord) : List StandupRecord → List StandupRecord
  | [] => [x]
  | y :: ys => if x.timestamp < y.timestamp then x :: y :: ys else y :: insertByTimestamp x ys

/-- Sort records oldest first by timestamp (`dataHandler.js` lines 533-534). -/
def sortByTimestamp (l : List StandupRecord) : List StandupRecord :=
  l.foldl (fun acc x => insertByTimestamp x acc) []

/-- The `reduce(...) / length` average used by the trend analysis, over
exact rationals. -/
def avgQ (l : List ℚ) : ℚ :=
  l.sum / (l.length : ℚ)

/-- `analyzeMemberTrends` (`dataHandler.js` lines 527-569).  Fewer than 3
records yield the sentinel; otherwise the earliest-3 (`slice(0, 3)`) and
most-recent-3 (`slice(-3)`) task and PR counts are averaged and compared
against the 1.2 and 0.8 multiples of the earlier average (arithmetic is
modelled exactly over `Rat`).  `blockerTrend` is initialized to `stable` and
never updated in the source. -/
def analyzeMemberTrends (recentUpdates : List StandupRecord) : TrendResult :=
  if recentUpdates.length < 3 then
    .insufficient "Not enough data for trend analysis"
  else
    let sorted := sortByTimestamp recentUpdates
    let recentAvgTasks := avgQ ((lastN 3 sorted).map (fun u => (u.jiraTasks.length : ℚ)))
    let earlierAvgTasks := avgQ ((sorted.take 3).map (fun u => (u.jiraTasks.length : ℚ)))
    let taskTrend : TrendDir :=
      if recentAvgTasks > earlierAvgTasks * (12 / 10) then .increasing
      else if recentAvgTasks < earlierAvgTasks * (8 / 10) then .decreasing
      else .stable
    let recentAvgPRs := avgQ ((lastN 3 sorted).map (fun u => (u.bitbucketPRs.length : ℚ)))
    let earlierAvgPRs := avgQ ((sorted.take 3).map (fun u => (u.bitbucketPRs.length : ℚ)))
    let prTrend : TrendDir :=
      if recentAvgPRs > earlierAvgPRs * (12 / 10) then .increasing
      else if recentAvgPRs < earlierAvgPRs * (8 / 10) then .decreasing
      else .stable
    .trends taskTrend prTrend .stable

/-- The body of the `forEach` in `findRecurringBlockers` (`dataHandler.js`
lines 616-627), walking the normalized texts with their index: an entry is
recurring when at least one other entry contains its first 20 characters as
a substring, and is reported as its first 100 characters with the count of
similar entries plus one. -/
def recurringAux (all : List String) : List String → Nat → List (String × Nat)
  | [], _ => []
  | b :: rest, i =>
    let similar :=
      ((all.enum).filter (fun p => p.1 != i && jsIncludes p.2 (jsTake b 20))).length
    (if similar > 0 then [(jsTake b 100, similar + 1)] else []) ++ recurringAux all rest (i + 1)

/-- `findRecurringBlockers` (`dataHandler.js` lines 612-630).  The source
receives blocker objects and projects `b.blocker`; the embedding takes the
projected texts.  The first three recurring entries, in input order, are
returned. -/
def findRecurringBlockers (blockerTexts : List String) : List (String × Nat) :=
  let texts := blockerTexts.map jsToLower
  (recurringAux texts texts 0).take 3

/-- `calculateProductivityScore` (`dataHandler.js` lines 706-718), over exact
rationals. -/
def calculateProductivityScore (tasks prs blockers standups : Nat) : String :=
  if standups = 0 then "No data"
  else
    let taskScore := ((tasks : ℚ) / (standups : ℚ)) * 2
    let prScore := ((prs : ℚ) / (standups : ℚ)) * (3 / 2)
    let blockerPenalty := ((blockers : ℚ) / (standups : ℚ)) * 2
    let score := taskScore + prScore - blockerPenalty
    if score > 6 then "High"
    else if score > 3 then "Medium"
    else "Low"

/-- Formalization of claim C6's stated formula, for comparison with the
source: `score = tasks×2 + prs×1.5 − (blockerCount/standups)×10`, bucketed
`High` (>6), `Medium` (>3), `Low` (else), `No data` when `standups = 0`. -/
def claimProductivityScore (tasks prs blockers standups : Nat) : String :=
  if standups = 0 then "No data"
  else
    let score := (tasks : ℚ) * 2 + (prs : ℚ) * (3 / 2) - ((blockers : ℚ) / (standups : ℚ)) * 10
    if score > 6 then "High"
    else if score > 3 then "Medium"
    else "Low"

/-! ## Fixtures used by witnesses and counterexamples -/

/-- A submission with no blockers and no linked items. -/
def sampleStandupData : StandupData :=
  ⟨"alice", "2024-01-02T09:00:00Z", "reviewed code", "write tests", "none"⟩

/-- A stored record with the given timestamp, task count, PR count and
blocker text. -/
def mkRecord (ts : String) (nTasks nPRs : Nat) (blockers : String) : StandupRecord :=
  ⟨"alice", ts, "worked", "working", blockers,
    (List.range nTasks).map (fun i => ⟨toString i⟩),
    (List.range nPRs).map (fun i => ⟨toString i, "OPEN", 0⟩)⟩

/-- Three records on consecutive days with flat counts. -/
def sampleThreeRecords : List StandupRecord :=
  [mkRecord "2024-01-01" 2 1 "none", mkRecord "2024-01-02" 2 1 "none",
   mkRecord "2024-01-03" 2 1 "none"]

/-! ## General helper lemmas -/

lemma length_insertByTimestamp (x : StandupRecord) (l : List StandupRecord) :
    (insertByTimestamp x l).length = l.length + 1 := by
  induction l with
  | nil => rfl
  | cons y ys ih =>
    unfold insertByTimestamp
    split
    · simp
    · simpa using ih

lemma length_sortByTimestamp (l : List StandupRecord) :
    (sortByTimestamp l).length = l.length := by
  suffices h : ∀ acc : List StandupRecord,
      (l.foldl (fun acc x => insertByTimestamp x acc) acc).length = acc.length + l.length by
    simpa using h []
  induction l with
  | nil => intro acc; simp
  | cons x xs ih =>
    intro acc
    simp only [List.foldl_cons, List.length_cons]
    rw [ih, length_insertByTimestamp]
    omega

lemma avgQ_nonneg (l : List ℚ) (h : ∀ x ∈ l, 0 ≤ x) : 0 ≤ avgQ l := by
  unfold avgQ
  apply div_nonneg (List.sum_nonneg h)
  positivity

/-- At equal averages, the 1.2/0.8 threshold test reports `stable` (exact
arithmetic). -/
lemma trendDirOfEqAvg (a : ℚ) (ha : 0 ≤ a) :
    (if a > a * (12 / 10) then TrendDir.increasing
     else if a < a * (8 / 10) then TrendDir.decreasing
     else TrendDir.stable) = TrendDir.stable := by
  rw [if_neg (by linarith), if_neg (by linarith)]

lemma mapRecordCast_nonneg (f : StandupRecord → Nat) (l : List StandupRecord) :
    ∀ x ∈ l.map (fun u => ((f u : Nat) : ℚ)), 0 ≤ x := by
  intro x hx
  simp only [List.mem_map] at hx
  obtain ⟨u, _, rfl⟩ := hx
  exact Nat.cast_nonneg _

/-- Key helper: on exactly 3 records the `slice(0, 3)` and `slice(-3)` groups
are both the whole sorted sequence, so both averages agree for each metric
and all three reported directions are `stable`. -/
lemma analyzeMemberTrends_three (updates : List StandupRecord) (h : updates.length = 3) :
    avgQ ((lastN 3 (sortByTimestamp updates)).map (fun u => (u.jiraTasks.length : ℚ)))
      = avgQ (((sortByTimestamp updates).take 3).map (fun u => (u.jiraTasks.length : ℚ))) ∧
    avgQ ((lastN 3 (sortByTimestamp updates)).map (fun u => (u.bitbucketPRs.length : ℚ)))
      = avgQ (((sortByTimestamp updates).take 3).map (fun u => (u.bitbucketPRs.length : ℚ))) ∧
    analyzeMemberTrends updates = .trends .stable .stable .stable := by
  have hlen : (sortByTimestamp updates).length = 3 := by
    rw [length_sortByTimestamp, h]
  have hlast : lastN 3 (sortByTimestamp updates) = sortByTimestamp updates := by
    unfold lastN
    rw [hlen]
    simp
  have htake : (sortByTimestamp updates).take 3 = sortByTimestamp updates := by
    rw [← hlen]
    exact List.take_length _
  refine ⟨by rw [hlast, htake], by rw [hlast, htake], ?_⟩
  unfold analyzeMemberTrends
  rw [if_neg (by omega)]
  simp only [hlast, htake]
  rw [trendDirOfEqAvg _ (avgQ_nonneg _ (mapRecordCast_nonneg (fun u => u.jiraTasks.length) _)),
    trendDirOfEqAvg _ (avgQ_nonneg _ (mapRecordCast_nonneg (fun u => u.bitbucketPRs.length) _))]

/-- C4 (amended): for every record sequence with fewer than 3 records,
`analyzeMemberTrends` returns the sentinel `{ message: 'Not enough data for
trend analysis' }` rather than a computed trend, and does not raise an
error. -/
theorem C4_insufficient_sentinel (updates : List StandupRecord) (h : updates.length < 3) :
    analyzeMemberTrends updates = .insufficient "Not enough data for trend analysis" := by
  unfold analyzeMemberTrends
  rw [if_pos h]

/-- Witness for C4: the empty record sequence yields the sentinel. -/
theorem C4_insufficient_sentinel_witness :
    analyzeMemberTrends [] = .insufficient "Not enough data for trend analysis" :=
  C4_insufficient_sentinel [] (by simp)

/-- Counterexample to C4 as stated: a 3-record input (fewer than 6 records)
does not return the sentinel; the source threshold is 3, not 6, so a
computed trend object is returned. -/
theorem C4_counterexample :
    sampleThreeRecords.length < 6 ∧
    analyzeMemberTrends sampleThreeRecords
      = .trends .stable .stable .stable :=
  ⟨by decide, (analyzeMemberTrends_three sampleThreeRecords (by decide)).2.2⟩

/-- C10: for every input of exactly 3 records the earliest-3 and
most-recent-3 slices coincide with the whole sorted sequence, so the recent
and earlier averages agree for both computed metrics and every reported
trend direction is `stable` (the task and PR trends by the threshold test at
equal averages, the blocker trend by initialization). -/
theorem C10_three_records_stable (updates : List StandupRecord) (h : updates.length = 3) :
    avgQ ((lastN 3 (sortByTimestamp updates)).map (fun u => (u.jiraTasks.length : ℚ)))
      = avgQ (((sortByTimestamp updates).take 3).map (fun u => (u.jiraTasks.length : ℚ))) ∧
    avgQ ((lastN 3 (sortByTimestamp updates)).map (fun u => (u.bitbucketPRs.length : ℚ)))
      = avgQ (((sortByTimestamp updates).take 3).map (fun u => (u.bitbucketPRs.length : ℚ))) ∧
    analyzeMemberTrends updates = .trends .stable .stable .stable :=
  analyzeMemberTrends_three updates h

/-- Witness for C10: three concrete records give all-stable trends with equal
averages. -/
theorem C10_three_records_stable_witness :
    avgQ ((lastN 3 (sortByTimestamp sampleThreeRecords)).map (fun u => (u.jiraTasks.length : ℚ)))
      = avgQ (((sortByTimestamp sampleThreeRecords).take 3).map (fun u => (u.jiraTasks.length : ℚ))) ∧
    avgQ ((lastN 3 (sortByTimestamp sampleThreeRecords)).map (fun u => (u.bitbucketPRs.length : ℚ)))
      = avgQ (((sortByTimestamp sampleThreeRecords).take 3).map (fun u => (u.bitbucketPRs.length : ℚ))) ∧
    analyzeMemberTrends sampleThreeRecords = .trends .stable .stable .stable :=
  C10_three_records_stable sampleThreeRecords (by decide)

/-- C6 (amended): with `standups ≠ 0`, the productivity rating equals the
bucketing of `score = (tasks/standups)×2 + (prs/standups)×1.5 −
(blockerCount/standups)×2`, equivalently `(tasks×2 + prs×1.5 −
blockerCount×2)/standups`, into `High` (>6), `Medium` (>3), `Low` (else),
and is never `No data`; the claimed coefficients (tasks and PRs not divided
by standups, blocker coefficient 10) do not match the source. -/
theorem C6_productivity_bucket (tasks prs blockers standups : Nat) (h : standups ≠ 0) :
    calculateProductivityScore tasks prs blockers standups =
      (if 6 < (((tasks : Nat) : ℚ) * 2 + ((prs : Nat) : ℚ) * (3 / 2)
            - ((blockers : Nat) : ℚ) * 2) / ((standups : Nat) : ℚ) then "High"
       else if 3 < (((tasks : Nat) : ℚ) * 2 + ((prs : Nat) : ℚ) * (3 / 2)
            - ((blockers : Nat) : ℚ) * 2) / ((standups : Nat) : ℚ) then "Medium"
       else "Low") ∧
    calculateProductivityScore tasks prs blockers standups ≠ "No data" := by
  have hs : ((standups : Nat) : ℚ) ≠ 0 := Nat.cast_ne_zero.mpr h
  have key : (((tasks : Nat) : ℚ) / ((standups : Nat) : ℚ)) * 2
      + (((prs : Nat) : ℚ) / ((standups : Nat) : ℚ)) * (3 / 2)
      - (((blockers : Nat) : ℚ) / ((standups : Nat) : ℚ)) * 2
      = (((tasks : Nat) : ℚ) * 2 + ((prs : Nat) : ℚ) * (3 / 2)
          - ((blockers : Nat) : ℚ) * 2) / ((standups : Nat) : ℚ) := by
    field_simp
    ring
  constructor
  · unfold calculateProductivityScore
    rw [if_neg h]
    simp only [gt_iff_lt, key]
  · unfold calculateProductivityScore
    rw [if_neg h]
    simp only [gt_iff_lt]
    split_ifs <;> decide

/-- Witness for C6: at `tasks = 4`, `prs = 0`, `blockers = 0`,
`standups = 2` the bucket equation holds with a nonzero standup count. -/
theorem C6_productivity_bucket_witness :
    calculateProductivityScore 4 0 0 2 =
      (if 6 < (((4 : Nat) : ℚ) * 2 + ((0 : Nat) : ℚ) * (3 / 2)
            - ((0 : Nat) : ℚ) * 2) / ((2 : Nat) : ℚ) then "High"
       else if 3 < (((4 : Nat) : ℚ) * 2 + ((0 : Nat) : ℚ) * (3 / 2)
            - ((0 : Nat) : ℚ) * 2) / ((2 : Nat) : ℚ) then "Medium"
       else "Low") ∧
    calculateProductivityScore 4 0 0 2 ≠ "No data" :=
  C6_productivity_bucket 4 0 0 2 (by decide)

/-- Counterexample to C6 as stated: at `tasks = 4`, `prs = 0`,
`blockers = 0`, `standups = 2` the source computes
`(4/2)×2 + 0 − 0 = 4 → "Medium"`, while the claimed formula
`tasks×2 + prs×1.5 − (blockers/standups)×10 = 8` gives `"High"`. -/
theorem C6_counterexample :
    calculateProductivityScore 4 0 0 2 = "Medium" ∧
    claimProductivityScore 4 0 0 2 = "High" ∧
    calculateProductivityScore 4 0 0 2 ≠ claimProductivityScore 4 0 0 2 := by
  have h1 : calculateProductivityScore 4 0 0 2 = "Medium" := by
    norm_num [calculateProductivityScore]
  have h2 : claimProductivityScore 4 0 0 2 = "High" := by
    norm_num [claimProductivityScore]
  refine ⟨h1, h2, ?_⟩
  rw [h1, h2]
  decide

lemma healthyIfEmpty_ne (l : List String) :
    (if l.isEmpty then ["Team metrics look healthy - keep up the good work!"] else l) ≠ [] := by
  cases l <;> simp

/-- C8: the insight engine is total (the embedded rule tables are total Lean
functions), the recommendation list is never empty, and zero metrics
(`totalStandups = 0`) yield exactly the informational no-data insight and the
generic starter recommendation rather than an empty result. -/
theorem C8_insight_engine_total (m : TeamMetrics) :
    generateTeamRecommendations m ≠ [] ∧
    (m.totalStandups = 0 →
      generateTeamInsights m = [⟨"info", "No standup data available yet", "low"⟩] ∧
      generateTeamRecommendations m = ["Start conducting regular standup meetings"]) := by
  constructor
  · unfold generateTeamRecommendations
    by_cases h0 : m.totalStandups = 0
    · rw [if_pos h0]
      simp
    · rw [if_neg h0]
      exact healthyIfEmpty_ne _
  · intro h0
    constructor
    · unfold generateTeamInsights
      rw [if_pos h0]
    · unfold generateTeamRecommendations
      rw [if_pos h0]

/-- Witness for C8: the metrics of the empty record set have
`totalStandups = 0` and produce the no-data insight plus the generic
recommendation. -/
theorem C8_insight_engine_total_witness :
    generateTeamRecommendations (getTeamMetrics [] none none) ≠ [] ∧
    generateTeamInsights (getTeamMetrics [] none none)
      = [⟨"info", "No standup data available yet", "low"⟩] ∧
    generateTeamRecommendations (getTeamMetrics [] none none)
      = ["Start conducting regular standup meetings"] := by
  have h := C8_insight_engine_total (getTeamMetrics [] none none)
  exact ⟨h.1, (h.2 rfl).1, (h.2 rfl).2⟩

lemma standupCount_updateMember (stats : MemberStats) (r : StandupRecord) :
    (updateMember stats r).standupCount = stats.standupCount + 1 := by
  unfold updateMember
  split <;> rfl

lemma sum_standupCount_update (acc : List (String × MemberStats)) (r : StandupRecord) :
    ((updateMemberStats acc r).map (fun p => p.2.standupCount)).sum
      = ((acc.map (fun p => p.2.standupCount)).sum) + 1 := by
  induction acc with
  | nil => simp [updateMemberStats, standupCount_updateMember]
  | cons hd tl ih =>
    obtain ⟨n, st⟩ := hd
    unfold updateMemberStats
    split
    · simp [standupCount_updateMember]
      omega
    · simp only [List.map_cons, List.sum_cons, ih]
      omega

lemma sum_standupCount_fold (l : List StandupRecord) (acc : List (String × MemberStats)) :
    (((l.foldl updateMemberStats acc).map (fun p => p.2.standupCount)).sum)
      = ((acc.map (fun p => p.2.standupCount)).sum) + l.length := by
  induction l generalizing acc with
  | nil => simp
  | cons x xs ih =>
    simp only [List.foldl_cons, List.length_cons]
    rw [ih, sum_standupCount_update]
    omega

/-- C7: for every record set and optional date window, the member standup
counts in `memberStats` sum to the total standup count of the metrics. -/
theorem C7_standupCount_partition (records : List StandupRecord)
    (startDate endDate : Option String) :
    (((getTeamMetrics records startDate endDate).memberStats.map
        (fun p => p.2.standupCount)).sum)
      = (getTeamMetrics records startDate endDate).totalStandups := by
  have h1 : (getTeamMetrics records startDate endDate).memberStats
      = memberStatsOf records startDate endDate := rfl
  have h2 : (getTeamMetrics records startDate endDate).totalStandups
      = (records.filter (inRange startDate endDate)).length := rfl
  rw [h1, h2]
  unfold memberStatsOf
  rw [sum_standupCount_fold]
  simp

lemma append_ne_empty (s t : String) (hs : s ≠ "") : s ++ t ≠ "" := by
  intro h
  apply hs
  have hd : s.data ++ t.data = [] := congrArg String.data h
  obtain ⟨h1, _⟩ := List.append_eq_nil.mp hd
  obtain ⟨d⟩ := s
  exact congrArg String.mk h1

lemma mem_generateFallbackQuestions (standupData : StandupData) (tasks : List JiraTask)
    (prs : List PullRequest) (q : String)
    (hq : q ∈ generateFallbackQuestions standupData tasks prs) :
    q = "What specific help do you need to resolve the blocker: \"" ++
        jsTake standupData.blockers 50 ++ "...\"?" ∨
    q = "How long do you estimate it will take to resolve your current blockers?" ∨
    q = "You have " ++ toString (prs.filter (fun pr => pr.state == "OPEN")).length ++
        " open PRs. Which ones are priority for review and merge?" ∨
    q = "With " ++ toString tasks.length ++
        " assigned tasks, how are you prioritizing your work?" ∨
    q = "Are there any dependencies on other team members that might affect your today\x27s plan?" ∨
    q = "Do you need any additional resources or support to complete your planned work?" ∨
    q = "Are there any risks or concerns about meeting your sprint commitments?" := by
  unfold generateFallbackQuestions at hq
  by_cases h1 : standupData.blockers ≠ "" ∧ jsToLower standupData.blockers ≠ "none" ∧
      jsTrim standupData.blockers ≠ "" <;>
    by_cases h2 : (prs.filter (fun pr => pr.state == "OPEN")).length > 2 <;>
    by_cases h3 : tasks.length > 5 <;>
    simp [h1, h2, h3] at hq <;>
    tauto

lemma generateFallbackQuestions_ne_nil (standupData : StandupData) (tasks : List JiraTask)
    (prs : List PullRequest) :
    generateFallbackQuestions standupData tasks prs ≠ [] := by
  unfold generateFallbackQuestions
  by_cases h1 : standupData.blockers ≠ "" ∧ jsToLower standupData.blockers ≠ "none" ∧
      jsTrim standupData.blockers ≠ "" <;>
    by_cases h2 : (prs.filter (fun pr => pr.state == "OPEN")).length > 2 <;>
    by_cases h3 : tasks.length > 5 <;>
    simp [h1, h2, h3]

lemma generateFallbackQuestions_length_le (standupData : StandupData) (tasks : List JiraTask)
    (prs : List PullRequest) :
    (generateFallbackQuestions standupData tasks prs).length ≤ 4 := by
  unfold generateFallbackQuestions
  by_cases h1 : standupData.blockers ≠ "" ∧ jsToLower standupData.blockers ≠ "none" ∧
      jsTrim standupData.blockers ≠ "" <;>
    by_cases h2 : (prs.filter (fun pr => pr.state == "OPEN")).length > 2 <;>
    by_cases h3 : tasks.length > 5 <;>
    simp [h1, h2, h3]

lemma generateFallbackQuestions_ne_empty_mem (standupData : StandupData)
    (tasks : List JiraTask) (prs : List PullRequest) (q : String)
    (hq : q ∈ generateFallbackQuestions standupData tasks prs) : q ≠ "" := by
  rcases mem_generateFallbackQuestions standupData tasks prs q hq with
    h | h | h | h | h | h | h <;> subst h
  · exact append_ne_empty _ _ (append_ne_empty _ _ (by decide))
  · decide
  · exact append_ne_empty _ _ (append_ne_empty _ _ (by decide))
  · exact append_ne_empty _ _ (append_ne_empty _ _ (by decide))
  · decide
  · decide
  · decide

/-- C1 (amended): for every adapter behaviour the question generator returns
an ordered list of between 1 and 5 entries, and when the adapter throws the
exception is resolved internally by the fallback generator — the result is
exactly the fallback questions, which are non-empty strings — and never
propagates; the stronger reading that every entry is a non-empty string for
every adapter behaviour fails (the adapter can answer with a JSON array
holding an empty string or a non-string). -/
theorem C1_generateFollowUpQuestions_total (adapter : Except Unit String)
    (standupData : StandupData) (tasks : List JiraTask) (prs : List PullRequest) :
    1 ≤ (generateFollowUpQuestions adapter standupData tasks prs).length ∧
    (generateFollowUpQuestions adapter standupData tasks prs).length ≤ 5 ∧
    (adapter = .error () →
      generateFollowUpQuestions adapter standupData tasks prs
        = (generateFallbackQuestions standupData tasks prs).map .str ∧
      ∀ q ∈ generateFollowUpQuestions adapter standupData tasks prs,
        ∃ s, q = JsValue.str s ∧ s ≠ "") := by
  have hfb1 : generateFallbackQuestions standupData tasks prs ≠ [] :=
    generateFallbackQuestions_ne_nil standupData tasks prs
  have hfb4 : (generateFallbackQuestions standupData tasks prs).length ≤ 4 :=
    generateFallbackQuestions_length_le standupData tasks prs
  have hfbpos : 1 ≤ (generateFallbackQuestions standupData tasks prs).length :=
    List.length_pos.mpr hfb1
  cases adapter with
  | error e =>
    have heq : generateFollowUpQuestions (.error e) standupData tasks prs
        = (generateFallbackQuestions standupData tasks prs).map .str := rfl
    refine ⟨?_, ?_, fun _ => ⟨heq, ?_⟩⟩
    · rw [heq, List.length_map]
      exact hfbpos
    · rw [heq, List.length_map]
      omega
    · rw [heq]
      intro q hq
      rw [List.mem_map] at hq
      obtain ⟨s, hs, rfl⟩ := hq
      exact ⟨s, rfl, generateFallbackQuestions_ne_empty_mem standupData tasks prs s hs⟩
  | ok content =>
    simp only [generateFollowUpQuestions]
    cases hp : parsedQuestions content with
    | arr xs =>
      cases xs with
      | nil =>
        refine ⟨?_, ?_, fun h => Except.noConfusion h⟩ <;> (simp [List.length_take]; try omega)
      | cons x xs' =>
        refine ⟨?_, ?_, fun h => Except.noConfusion h⟩ <;> (simp [List.length_take]; try omega)
    | null =>
      refine ⟨?_, ?_, fun h => Except.noConfusion h⟩ <;> (simp [List.length_take]; try omega)
    | bool b =>
      refine ⟨?_, ?_, fun h => Except.noConfusion h⟩ <;> (simp [List.length_take]; try omega)
    | num n =>
      refine ⟨?_, ?_, fun h => Except.noConfusion h⟩ <;> (simp [List.length_take]; try omega)
    | str s =>
      refine ⟨?_, ?_, fun h => Except.noConfusion h⟩ <;> (simp [List.length_take]; try omega)
    | obj fs =>
      refine ⟨?_, ?_, fun h => Except.noConfusion h⟩ <;> (simp [List.length_take]; try omega)

/-- Witness for C1: with a throwing adapter and a no-blocker submission the
generator returns the fallback questions, between 1 and 5 of them. -/
theorem C1_generateFollowUpQuestions_total_witness :
    1 ≤ (generateFollowUpQuestions (.error ()) sampleStandupData [] []).length ∧
    (generateFollowUpQuestions (.error ()) sampleStandupData [] []).length ≤ 5 ∧
    generateFollowUpQuestions (.error ()) sampleStandupData [] []
      = (generateFallbackQuestions sampleStandupData [] []).map .str := by
  have h := C1_generateFollowUpQuestions_total (.error ()) sampleStandupData [] []
  exact ⟨h.1, h.2.1, (h.2.2 rfl).1⟩

/-- Counterexample to C1 as stated: when the adapter answers with the JSON
text `[""]`, the parse succeeds with a non-empty array and the generator
returns it unchanged, so the output is the one-element list holding the
empty string — not a list of non-empty strings. -/
theorem C1_counterexample :
    generateFollowUpQuestions (.ok "[\"\"]") sampleStandupData [] [] = [JsValue.str ""] ∧
    ¬ (∀ q ∈ generateFollowUpQuestions (.ok "[\"\"]") sampleStandupData [] [],
        ∃ s, q = JsValue.str s ∧ s ≠ "") := by
  have h1 : generateFollowUpQuestions (.ok "[\"\"]") sampleStandupData [] []
      = [JsValue.str ""] := rfl
  refine ⟨h1, fun h => ?_⟩
  obtain ⟨s, hs, hne⟩ := h (JsValue.str "") (by rw [h1]; exact List.mem_singleton.mpr rfl)
  injection hs with h2
  exact hne h2.symm

/-- C9 (amended): for every response text whose parsed value is not a
non-empty array (the element types are not checked by the source), the
generator discards it and produces its output via the deterministic fallback
path. -/
theorem C9_nonarray_uses_fallback (content : String) (standupData : StandupData)
    (tasks : List JiraTask) (prs : List PullRequest)
    (h : ∀ xs, parsedQuestions content = JsValue.arr xs → xs = []) :
    generateFollowUpQuestions (.ok content) standupData tasks prs
      = ((generateFallbackQuestions standupData tasks prs).map .str).take 5 := by
  simp only [generateFollowUpQuestions]
  cases hp : parsedQuestions content with
  | arr xs =>
    cases xs with
    | nil => rfl
    | cons x xs' => exact absurd (h _ hp) (by simp)
  | null => rfl
  | bool b => rfl
  | num n => rfl
  | str s => rfl
  | obj fs => rfl

/-- Witness for C9: a plain-text response with no question-like line parses
to the empty array, so the fallback path is taken. -/
theorem C9_nonarray_uses_fallback_witness :
    generateFollowUpQuestions (.ok "no questions here") sampleStandupData [] []
      = ((generateFallbackQuestions sampleStandupData [] []).map .str).take 5 := by
  refine C9_nonarray_uses_fallback "no questions here" sampleStandupData [] [] ?_
  intro xs hxs
  have h0 : parsedQuestions "no questions here" = JsValue.arr [] := rfl
  rw [h0] at hxs
  injection hxs with h2
  exact h2.symm

/-- Counterexample to C9 as stated: the response text `[1]` parses to a
non-empty array that is not an array of strings, yet the generator keeps it
instead of discarding it for the fallback path. -/
theorem C9_counterexample :
    generateFollowUpQuestions (.ok "[1]") sampleStandupData [] [] = [JsValue.num 1] ∧
    (∀ s : String, JsValue.num 1 ≠ JsValue.str s) ∧
    generateFollowUpQuestions (.ok "[1]") sampleStandupData [] []
      ≠ ((generateFallbackQuestions sampleStandupData [] []).map .str).take 5 := by
  have h1 : generateFollowUpQuestions (.ok "[1]") sampleStandupData [] []
      = [JsValue.num 1] := rfl
  have hlen : (((generateFallbackQuestions sampleStandupData [] []).map JsValue.str).take 5).length
      = 3 := rfl
  refine ⟨h1, fun s h => JsValue.noConfusion h, fun h => ?_⟩
  rw [h1] at h
  have h2 := congrArg List.length h
  rw [hlen] at h2
  simp at h2

/-- The rule of amended claim C5 in comprehension form: an indexed entry is
recurring when at least one other entry's normalized text contains its first
20 characters as a substring; the first three recurring entries, in input
order, are reported as their first 100 characters with the similar count
plus one. -/
def findRecurringBlockersSpec (blockerTexts : List String) : List (String × Nat) :=
  let texts := blockerTexts.map jsToLower
  (texts.enum.filterMap (fun p =>
    let cnt := ((texts.enum).filter (fun q => q.1 != p.1 && jsIncludes q.2 (jsTake p.2 20))).length
    if cnt > 0 then some (jsTake p.2 100, cnt + 1) else none)).take 3

lemma recurringAux_eq (all : List String) (l : List String) (i : Nat) :
    recurringAux all l i = (List.enumFrom i l).filterMap (fun p =>
      let cnt := ((all.enum).filter (fun q => q.1 != p.1 && jsIncludes q.2 (jsTake p.2 20))).length
      if cnt > 0 then some (jsTake p.2 100, cnt + 1) else none) := by
  induction l generalizing i with
  | nil => rfl
  | cons b rest ih =>
    simp only [recurringAux]
    rw [ih]
    by_cases hc : 0 < ((all.enum).filter (fun q => q.1 != i && jsIncludes q.2 (jsTake b 20))).length
    · simp [List.enumFrom, List.filterMap_cons, hc]
    · simp [List.enumFrom, List.filterMap_cons, hc]

/-- C5 (amended): `findRecurringBlockers` lowercases the texts, marks an
entry recurring when at least one other entry contains its leading 20
characters as a substring (not: shares the same leading 20 characters),
reports its first 100 characters with no ellipsis appended and an occurrence
count of the similar count plus one (hence always at least 2), and returns
the first 3 recurring entries in input order (not the top 3 by count). -/
theorem C5_findRecurringBlockers (blockerTexts : List String) :
    findRecurringBlockers blockerTexts = findRecurringBlockersSpec blockerTexts ∧
    (findRecurringBlockers blockerTexts).length ≤ 3 ∧
    ∀ e ∈ findRecurringBlockers blockerTexts, 2 ≤ e.2 := by
  have key : findRecurringBlockers blockerTexts = findRecurringBlockersSpec blockerTexts := by
    unfold findRecurringBlockers findRecurringBlockersSpec
    show (recurringAux (blockerTexts.map jsToLower) (blockerTexts.map jsToLower) 0).take 3 = _
    rw [recurringAux_eq]
    rfl
  refine ⟨key, ?_, ?_⟩
  · rw [key]
    unfold findRecurringBlockersSpec
    exact List.length_take_le _ _
  · rw [key]
    unfold findRecurringBlockersSpec
    intro e he
    have he2 := List.mem_of_mem_take he
    rw [List.mem_filterMap] at he2
    obtain ⟨p, hp, hf⟩ := he2
    simp only at hf
    split at hf
    · rename_i hc
      injection hf with h2
      rw [← h2]
      omega
    · exact absurd hf (by simp)

/-- The string of `n` letters `a`. -/
def aChars (n : Nat) : String :=
  String.mk (List.replicate n 'a')

/-- Five blocker texts: two identical 120-character ones (each similar to the
other), then three texts sharing the leading 20 characters (each similar to
the two others). -/
def sampleBlockerTexts : List String :=
  [aChars 120, aChars 120, "Blocked on CI pipeline", "blocked on ci pipeline",
   "blocked on ci pipeline again"]

/-- Counterexample to C5 as stated: on `sampleBlockerTexts` the source
returns the first three recurring entries in input order — the two
occurrence-2 entries before the occurrence-3 entry, so the output is not
ordered by occurrence count — and each message is a bare 100-character
truncation with no ellipsis appended. -/
theorem C5_counterexample :
    findRecurringBlockers sampleBlockerTexts
      = [(aChars 100, 2), (aChars 100, 2), ("blocked on ci pipeline", 3)] ∧
    ¬ List.Pairwise (fun a b : String × Nat => b.2 ≤ a.2)
        (findRecurringBlockers sampleBlockerTexts) ∧
    ∀ e ∈ findRecurringBlockers sampleBlockerTexts, ¬ (jsIncludes e.1 "..." = true) := by
  have h1 : findRecurringBlockers sampleBlockerTexts
      = [(aChars 100, 2), (aChars 100, 2), ("blocked on ci pipeline", 3)] := by decide
  refine ⟨h1, ?_, ?_⟩
  · intro h
    rw [h1] at h
    have h2 := (List.pairwise_cons.mp h).1 ("blocked on ci pipeline", 3) (by simp)
    simp at h2
  · rw [h1]
    decide

lemma mem_insertByCountDesc {x a : String × Nat} {l : List (String × Nat)}
    (h : a ∈ insertByCountDesc x l) : a = x ∨ a ∈ l := by
  induction l with
  | nil => simpa [insertByCountDesc] using h
  | cons y ys ih =>
    unfold insertByCountDesc at h
    split at h
    · rcases List.mem_cons.mp h with h | h
      · exact Or.inl h
      · exact Or.inr h
    · rcases List.mem_cons.mp h with h | h
      · exact Or.inr (List.mem_cons.mpr (Or.inl h))
      · rcases ih h with h | h
        · exact Or.inl h
        · exact Or.inr (List.mem_cons.mpr (Or.inr h))

lemma pairwise_insertByCountDesc (x : String × Nat) (l : List (String × Nat))
    (h : List.Pairwise (fun a b => b.2 ≤ a.2) l) :
    List.Pairwise (fun a b => b.2 ≤ a.2) (insertByCountDesc x l) := by
  induction l with
  | nil => simp [insertByCountDesc]
  | cons y ys ih =>
    rw [List.pairwise_cons] at h
    obtain ⟨hy, hys⟩ := h
    unfold insertByCountDesc
    split
    · rename_i hgt
      rw [List.pairwise_cons]
      refine ⟨?_, List.pairwise_cons.mpr ⟨hy, hys⟩⟩
      intro a ha
      rcases List.mem_cons.mp ha with rfl | ha
      · omega
      · exact le_trans (hy a ha) (by omega)
    · rename_i hle
      rw [List.pairwise_cons]
      refine ⟨?_, ih hys⟩
      intro a ha
      rcases mem_insertByCountDesc ha with rfl | ha
      · omega
      · exact hy a ha

lemma pairwise_sortByCountDesc (l : List (String × Nat)) :
    List.Pairwise (fun a b => b.2 ≤ a.2) (sortByCountDesc l) := by
  suffices h : ∀ acc : List (String × Nat),
      List.Pairwise (fun a b : String × Nat => b.2 ≤ a.2) acc →
      List.Pairwise (fun a b : String × Nat => b.2 ≤ a.2)
        (l.foldl (fun acc x => insertByCountDesc x acc) acc) by
    exact h [] (by simp)
  induction l with
  | nil => intro acc hacc; simpa using hacc
  | cons x xs ih =>
    intro acc hacc
    simp only [List.foldl_cons]
    exact ih _ (pairwise_insertByCountDesc x acc hacc)

lemma filter_count_eq_nil (l : List (String × Nat)) (c : Nat) (y : String × Nat)
    (hl : List.Pairwise (fun a b => b.2 ≤ a.2) (y :: l)) (hy : y.2 < c) :
    (y :: l).filter (fun e => e.2 == c) = [] := by
  rw [List.filter_eq_nil_iff]
  intro a ha
  rcases List.mem_cons.mp ha with rfl | ha
  · simp
    omega
  · have h2 := (List.pairwise_cons.mp hl).1 a ha
    simp
    omega

lemma filter_insertByCountDesc_ne (x : String × Nat) (l : List (String × Nat)) (c : Nat)
    (hx : x.2 ≠ c) :
    (insertByCountDesc x l).filter (fun e => e.2 == c)
      = l.filter (fun e => e.2 == c) := by
  induction l with
  | nil => simp [insertByCountDesc, hx]
  | cons y ys ih =>
    unfold insertByCountDesc
    split
    · simp [List.filter_cons, hx]
    · rw [List.filter_cons, List.filter_cons, ih]

lemma filter_insertByCountDesc_eq (x : String × Nat) (l : List (String × Nat)) (c : Nat)
    (hx : x.2 = c) (hl : List.Pairwise (fun a b => b.2 ≤ a.2) l) :
    (insertByCountDesc x l).filter (fun e => e.2 == c)
      = l.filter (fun e => e.2 == c) ++ [x] := by
  induction l with
  | nil => simp [insertByCountDesc, hx]
  | cons y ys ih =>
    unfold insertByCountDesc
    split
    · rename_i hgt
      rw [List.filter_cons (x := x), if_pos (by simp [hx]),
        filter_count_eq_nil ys c y hl (by omega)]
      simp
    · rename_i hle
      rw [List.filter_cons, List.filter_cons, ih (List.pairwise_cons.mp hl).2]
      split <;> simp

lemma filter_foldl_insert (l : List (String × Nat)) (acc : List (String × Nat)) (c : Nat)
    (hacc : List.Pairwise (fun a b => b.2 ≤ a.2) acc) :
    ((l.foldl (fun acc x => insertByCountDesc x acc) acc).filter (fun e => e.2 == c))
      = acc.filter (fun e => e.2 == c) ++ l.filter (fun e => e.2 == c) := by
  induction l generalizing acc with
  | nil => simp
  | cons x xs ih =>
    simp only [List.foldl_cons]
    rw [ih _ (pairwise_insertByCountDesc x acc hacc)]
    by_cases hx : x.2 = c
    · rw [filter_insertByCountDesc_eq x acc c hx hacc,
        List.filter_cons (x := x), if_pos (by simp [hx])]
      simp
    · rw [filter_insertByCountDesc_ne x acc c hx,
        List.filter_cons (x := x), if_neg (by simp [hx])]

lemma filter_sortByCountDesc (l : List (String × Nat)) (c : Nat) :
    (sortByCountDesc l).filter (fun e => e.2 == c) = l.filter (fun e => e.2 == c) := by
  unfold sortByCountDesc
  rw [filter_foldl_insert l [] c (by simp)]
  simp

lemma map_fst_bumpBlocker (acc : List (String × Nat)) (k : String) :
    (bumpBlocker acc k).map Prod.fst
      = if k ∈ acc.map Prod.fst then acc.map Prod.fst else acc.map Prod.fst ++ [k] := by
  induction acc with
  | nil => simp [bumpBlocker]
  | cons hd tl ih =>
    obtain ⟨k0, c⟩ := hd
    unfold bumpBlocker
    split
    · rename_i heq
      simp [heq]
    · rename_i hne
      have hne2 : k ≠ k0 := fun h => hne h.symm
      simp only [List.map_cons, ih]
      by_cases hmem : k ∈ tl.map Prod.fst
      · simp [hmem, hne2]
      · simp [hmem, hne2]

lemma map_fst_blockerFrequency (records : List StandupRecord)
    (startDate endDate : Option String) :
    (blockerFrequency records startDate endDate).map Prod.fst
      = firstSeenBlockerKeys records startDate endDate := by
  unfold blockerFrequency firstSeenBlockerKeys
  generalize records.filter (inRange startDate endDate) = l
  suffices h : ∀ acc : List (String × Nat),
      ((l.foldl (fun acc r =>
          if blockerValid r.blockers then bumpBlocker acc (blockerKey r.blockers) else acc)
        acc).map Prod.fst)
        = l.foldl (fun acc r =>
            if blockerValid r.blockers then
              (if blockerKey r.blockers ∈ acc then acc else acc ++ [blockerKey r.blockers])
            else acc) (acc.map Prod.fst) by
    simpa using h []
  induction l with
  | nil => intro acc; simp
  | cons r rs ih =>
    intro acc
    simp only [List.foldl_cons]
    by_cases hv : blockerValid r.blockers = true
    · rw [if_pos hv, if_pos hv, ← map_fst_bumpBlocker]
      exact ih _
    · rw [if_neg hv, if_neg hv]
      exact ih _

/-- One step of the ascending insertion of a bare key (numeric order of
array-index keys), the key-level image of `insertByIdxAsc`. -/
def insertKeyByIdxAsc (k : String) : List String → List String
  | [] => [k]
  | y :: ys => if arrayIdxVal k < arrayIdxVal y then k :: y :: ys else y :: insertKeyByIdxAsc k ys

/-- Ascending numeric sort of bare array-index keys. -/
def sortKeysByIdxAsc (l : List String) : List String :=
  l.foldl (fun acc k => insertKeyByIdxAsc k acc) []

/-- The `Object.entries` enumeration order on a bare key list: canonical
array-index keys ascending numerically, then the rest in the given
(creation) order. -/
def jsEnumKeys (keys : List String) : List String :=
  sortKeysByIdxAsc (keys.filter isArrayIndexKey) ++
    keys.filter (fun k => !isArrayIndexKey k)

lemma map_fst_insertByIdxAsc (x : String × Nat) (l : List (String × Nat)) :
    (insertByIdxAsc x l).map Prod.fst = insertKeyByIdxAsc x.1 (l.map Prod.fst) := by
  induction l with
  | nil => rfl
  | cons y ys ih =>
    by_cases hlt : arrayIdxVal x.1 < arrayIdxVal y.1
    · simp [insertByIdxAsc, insertKeyByIdxAsc, hlt]
    · simp [insertByIdxAsc, insertKeyByIdxAsc, hlt, ih]

lemma map_fst_sortByIdxAsc (l : List (String × Nat)) :
    (sortByIdxAsc l).map Prod.fst = sortKeysByIdxAsc (l.map Prod.fst) := by
  suffices h : ∀ acc : List (String × Nat),
      ((l.foldl (fun acc x => insertByIdxAsc x acc) acc).map Prod.fst)
        = (l.map Prod.fst).foldl (fun acc k => insertKeyByIdxAsc k acc) (acc.map Prod.fst) by
    simpa using h []
  induction l with
  | nil => intro acc; simp
  | cons x xs ih =>
    intro acc
    simp only [List.foldl_cons, List.map_cons]
    rw [ih, map_fst_insertByIdxAsc]

lemma map_fst_filterKey (p : String → Bool) (l : List (String × Nat)) :
    (l.filter (fun e => p e.1)).map Prod.fst = (l.map Prod.fst).filter p := by
  induction l with
  | nil => rfl
  | cons x xs ih =>
    by_cases hp : p x.1 = true <;> simp [List.filter_cons, hp, ih]

lemma map_fst_filterNotIdx (l : List (String × Nat)) :
    (l.filter (fun e => !isArrayIndexKey e.1)).map Prod.fst
      = (l.map Prod.fst).filter (fun k => !isArrayIndexKey k) :=
  map_fst_filterKey (fun k => !isArrayIndexKey k) l

lemma map_fst_jsObjectEntries (l : List (String × Nat)) :
    (jsObjectEntries l).map Prod.fst = jsEnumKeys (l.map Prod.fst) := by
  unfold jsObjectEntries jsEnumKeys
  rw [List.map_append, map_fst_sortByIdxAsc, map_fst_filterKey, map_fst_filterNotIdx]

/-- C2 (amended): `topBlockers` has at most 5 entries and is sorted by
non-increasing count; the sort is stable over the enumerated frequency table
(for each count value the entries keep their enumeration order), and that
enumeration order is the `Object.entries` order of the first-seen normalized
blocker keys — canonical array-index (integer-string) keys ascending
numerically first, then the remaining keys in first-seen order.  Ties are
therefore broken by first-seen order only among non-integer blocker keys. -/
theorem C2_topBlockers_sorted (records : List StandupRecord)
    (startDate endDate : Option String) :
    (getTeamMetrics records startDate endDate).topBlockers.length ≤ 5 ∧
    List.Pairwise (fun a b : String × Nat => b.2 ≤ a.2)
      (getTeamMetrics records startDate endDate).topBlockers ∧
    (∀ c : Nat,
      (sortByCountDesc (jsObjectEntries (blockerFrequency records startDate endDate))).filter
          (fun e => e.2 == c)
        = (jsObjectEntries (blockerFrequency records startDate endDate)).filter
            (fun e => e.2 == c)) ∧
    (jsObjectEntries (blockerFrequency records startDate endDate)).map Prod.fst
      = jsEnumKeys (firstSeenBlockerKeys records startDate endDate) := by
  have htb : (getTeamMetrics records startDate endDate).topBlockers
      = (sortByCountDesc (jsObjectEntries (blockerFrequency records startDate endDate))).take 5 :=
    rfl
  refine ⟨?_, ?_, fun c => filter_sortByCountDesc _ c, ?_⟩
  · rw [htb]
    exact List.length_take_le _ _
  · rw [htb]
    exact List.Pairwise.sublist (List.take_sublist _ _) (pairwise_sortByCountDesc _)
  · rw [map_fst_jsObjectEntries, map_fst_blockerFrequency]

/-- Two records whose normalized blocker texts are both canonical integer
strings, the numerically larger one submitted first. -/
def numericBlockerRecords : List StandupRecord :=
  [mkRecord "2024-01-01" 0 0 "12345", mkRecord "2024-01-02" 0 0 "123"]

/-- Counterexample to C2 as stated: with equal-count blockers `"12345"`
(seen first) and `"123"`, `Object.entries` enumerates the array-index keys
in ascending numeric order, so `topBlockers` lists `"123"` before `"12345"`
— not in the order the normalized blocker texts were first seen. -/
theorem C2_counterexample :
    (getTeamMetrics numericBlockerRecords none none).topBlockers
      = [("123", 1), ("12345", 1)] ∧
    firstSeenBlockerKeys numericBlockerRecords none none = ["12345", "123"] ∧
    (getTeamMetrics numericBlockerRecords none none).topBlockers.map Prod.fst
      ≠ firstSeenBlockerKeys numericBlockerRecords none none := by
  refine ⟨by decide, by decide, by decide⟩
